import Mathlib

/-!
Shallow embedding of the generation-orchestration core of the
vibe-socratic-tales application: the orchestrator component
(src/unnamed/part_000, the top-level App), and the request construction,
response-text post-processing and PCM-to-WAV encoding of
src/services/geminiService.ts.  External generative calls are modelled as
oracle outcomes passed to the orchestration functions; everything the code
itself computes is embedded as executable Lean definitions.
-/

namespace SocraticTales

/-- Application states (types.ts, `AppState`). -/
inductive AppState where
  | IDLE
  | ANALYZING
  | GENERATING_MEDIA
  | PLAYING
  | ERROR
deriving DecidableEq

/-- The `meta` field of `StoryResponse` (types.ts). -/
structure StoryMeta where
  detected_language : String
  educational_concept : String
  context_used : Bool
  character_voice_profile : String
deriving DecidableEq

/-- The `storyboard` field of `StoryResponse` (types.ts). -/
structure Storyboard where
  title : String
  display_text : String
  audio_text : String
  interactive_question : String
  suggested_questions : List String
deriving DecidableEq

/-- The `visuals` field of `StoryResponse` (types.ts). -/
structure Visuals where
  image_prompt : String
deriving DecidableEq

/-- `StoryResponse` (types.ts). -/
structure StoryResponse where
  meta : StoryMeta
  storyboard : Storyboard
  visuals : Visuals
deriving DecidableEq

/-- `ChildContext` (types.ts).  Both fields are plain strings in the source
type; they are modelled as `Option String` so that a JS `undefined` (no
value supplied) and an explicitly empty string are both expressible, because
the request builder applies JS `||` defaulting, which collapses the two.
`none` models an absent value, `some ""` the explicit empty string that the
UI state supplies by default. -/
structure ChildContext where
  childName : Option String
  characterName : Option String
deriving DecidableEq

/-- JS `x || d` on an optional string: `undefined` and `""` are falsy. -/
def jsOr (x : Option String) (d : String) : String :=
  match x with
  | none => d
  | some s => if s = "" then d else s

/-- The structured context object serialized into the prompt by
`generateStory` (geminiService.ts line 143): field names follow the
serialized JSON keys. -/
structure ContextObj where
  child_name : String
  character_name : String
  prev_topics : List String
deriving DecidableEq

/-- An uploaded image file, reduced to what the request builder reads from
it: its MIME type and its base64 payload (the `fileToGenerativePart`
result). -/
structure ImageFile where
  mime : String
  data : String
deriving DecidableEq

/-- The text part of a story request.  The source builds the string
`User Question: {question}\nContext: {JSON.stringify(contextObj)}` plus an
optional no-image note; the string template is modelled structurally (the
formatting is injective). -/
structure TextPrompt where
  question : String
  context : ContextObj
  noImageNote : Bool
deriving DecidableEq

/-- One entry of the `parts` array sent to the text-generation model. -/
inductive ReqPart where
  | image (mime : String) (data : String)
  | text (prompt : TextPrompt)
deriving DecidableEq

/-- Request construction of `generateStory` (geminiService.ts lines
136-163): the context object is always attached with `||` defaulting, an
inline image part precedes the text part when an image is supplied, and a
no-image note is appended exactly when no image is supplied. -/
def buildStoryRequest (imageFile : Option ImageFile) (question : String)
    (childContext : ChildContext) (previousTopics : List String) : List ReqPart :=
  let contextObj : ContextObj :=
    { child_name := jsOr childContext.childName "Friend"
      character_name := jsOr childContext.characterName ""
      prev_topics := previousTopics }
  let imageParts : List ReqPart :=
    match imageFile with
    | some f => [ReqPart.image f.mime f.data]
    | none => []
  imageParts ++
    [ReqPart.text
      { question := question
        context := contextObj
        noImageNote := imageFile.isNone }]

/-- The context object carried by the first text part of a request, if
any. -/
def requestContext (parts : List ReqPart) : Option ContextObj :=
  parts.findSome? fun p =>
    match p with
    | ReqPart.text tp => some tp.context
    | _ => none

/-- Character codes of a string's characters, as written by `writeString`
(geminiService.ts line 87, `charCodeAt`). -/
def asciiCodes (s : String) : List Nat := s.toList.map Char.toNat

/-- The two bytes written by `DataView.setUint16(_, v, true)`
(little-endian, value taken mod 2^16). -/
def u16le (v : Nat) : List Nat := [v % 256, v / 256 % 256]

/-- The four bytes written by `DataView.setUint32(_, v, true)`
(little-endian, value taken mod 2^32). -/
def u32le (v : Nat) : List Nat :=
  [v % 256, v / 256 % 256, v / 65536 % 256, v / 16777216 % 256]

/-- Little-endian value of a byte list (used to read header fields back). -/
def leVal : List Nat → Nat
  | [] => 0
  | b :: r => b + 256 * leVal r

/-- `pcmToWav` (geminiService.ts lines 93-127): a 44-byte RIFF/WAVE header
followed by the raw PCM bytes.  The source writes the fields into a zeroed
`ArrayBuffer` at offsets 0,4,8,12,16,20,22,24,28,32,34,36,40 which tile the
header contiguously, so the buffer is the concatenation of the fields in
offset order. -/
def pcmToWav (pcmData : List Nat) (sampleRate : Nat) : List Nat :=
  let numChannels := 1
  let bitsPerSample := 16
  let byteRate := sampleRate * numChannels * bitsPerSample / 8
  let blockAlign := numChannels * bitsPerSample / 8
  let dataSize := pcmData.length
  asciiCodes "RIFF" ++ u32le (36 + dataSize) ++ asciiCodes "WAVE" ++
  asciiCodes "fmt " ++ u32le 16 ++ u16le 1 ++ u16le numChannels ++
  u32le sampleRate ++ u32le byteRate ++ u16le blockAlign ++ u16le bitsPerSample ++
  asciiCodes "data" ++ u32le dataSize ++ pcmData

/-- Model of `URL.createObjectURL` applied to the WAV blob: an opaque
handle determined by the blob contents. -/
def urlOfWav (wav : List Nat) : String := "blob:" ++ toString wav

/-- The tail of `generateSpeech` (geminiService.ts lines 204-217) after the
base64 audio payload has been decoded to raw PCM bytes: the bytes are
encoded with `pcmToWav` at the fixed 24000 Hz rate and wrapped in an object
URL.  `pcmToWav` is total, so this step fulfills for every byte buffer. -/
def speechResultOfPcm (pcmBytes : List Nat) : Option String :=
  some (urlOfWav (pcmToWav pcmBytes 24000))

/-- Outcomes of the two `Promise.allSettled` media calls: `some url` models
a fulfilled call with its value, `none` a rejected call. -/
structure MediaOutcomes where
  audio : Option String
  image : Option String
deriving DecidableEq

/-- Outcome of the awaited `generateStory` call: `ok` models a fulfilled
call returning a parsed story, `err` any throw (network error, empty text,
parse failure). -/
inductive TextOutcome where
  | ok (story : StoryResponse)
  | err
deriving DecidableEq

/-- The arguments of the `generateStory(file, question, context,
previousTopics)` call issued by a turn. -/
structure CallArgs where
  file : Option ImageFile
  question : String
  context : ChildContext
  prevTopics : List String
deriving DecidableEq

/-- The React state of the App component (src/unnamed/part_000 lines
9-20). -/
structure AppModel where
  appState : AppState
  storyData : Option StoryResponse
  audioUrl : Option String
  imageUrl : Option String
  errorMsg : Option String
  previousTopics : List String
  currentFile : Option ImageFile
  currentContext : ChildContext
deriving DecidableEq

/-- `{ childName: '', characterName: '' }` as used for the initial and
reset context. -/
def emptyContext : ChildContext := { childName := some "", characterName := some "" }

/-- The initial `useState` values of the App component. -/
def initialState : AppModel :=
  { appState := .IDLE
    storyData := none
    audioUrl := none
    imageUrl := none
    errorMsg := none
    previousTopics := []
    currentFile := none
    currentContext := emptyContext }

/-- The user-facing message surfaced on a text-generation failure. -/
def oopsMsg : String := "Oops! The magic wand sputtered. Please try again!"

/-- JS `array.slice(-3)`. -/
def jsSliceLast3 (l : List String) : List String := l.drop (l.length - 3)

/-- The functional updater passed to `setPreviousTopics` on success
(src/unnamed/part_000 lines 42-46): append, keep only the last 3. -/
def appendTopic (prev : List String) (topic : String) : List String :=
  jsSliceLast3 (prev ++ [topic])

/-- Phase 1 of `processStoryGeneration` (lines 31-34): enter ANALYZING and
clear stale error and media state. -/
def turnStart (st : AppModel) : AppModel :=
  { st with appState := .ANALYZING, errorMsg := none, audioUrl := none, imageUrl := none }

/-- The catch branch of `processStoryGeneration` (lines 75-79). -/
def turnTextFail (st : AppModel) : AppModel :=
  { st with errorMsg := some oopsMsg, appState := .ERROR }

/-- Lines 39-48: store the story, append its educational concept to the
topic history, enter GENERATING_MEDIA. -/
def storeStory (st : AppModel) (story : StoryResponse) : AppModel :=
  { st with
    storyData := some story
    previousTopics := appendTopic st.previousTopics story.meta.educational_concept
    appState := .GENERATING_MEDIA }

/-- Lines 51-73: apply each settled media outcome independently (a
fulfilled call stores its value, a rejected call leaves the field as it
is), then enter PLAYING unconditionally. -/
def settleMedia (st : AppModel) (mo : MediaOutcomes) : AppModel :=
  { st with
    audioUrl := (match mo.audio with | some u => some u | none => st.audioUrl)
    imageUrl := (match mo.image with | some u => some u | none => st.imageUrl)
    appState := .PLAYING }

/-- `processStoryGeneration` (src/unnamed/part_000 lines 30-80), as the
composition of its phases, parameterized by the oracle outcomes of the
external calls.  Also returns the arguments of the `generateStory` call the
turn issues (read from the state before any topic append, as in the
source). -/
def processStoryGeneration (st : AppModel) (file : Option ImageFile) (question : String)
    (context : ChildContext) (tr : TextOutcome) (mo : MediaOutcomes) : AppModel × CallArgs :=
  let st1 := turnStart st
  let args : CallArgs :=
    { file := file
      question := question
      context := context
      prevTopics := st1.previousTopics }
  match tr with
  | .err => (turnTextFail st1, args)
  | .ok story => (settleMedia (storeStory st1 story) mo, args)

/-- `handleStartAdventure` (lines 22-28): save the inputs for follow-ups,
then run the turn. -/
def handleStartAdventure (st : AppModel) (file : Option ImageFile) (question : String)
    (context : ChildContext) (tr : TextOutcome) (mo : MediaOutcomes) : AppModel × CallArgs :=
  processStoryGeneration { st with currentFile := file, currentContext := context }
    file question context tr mo

/-- `handleSuggestedQuestionClick` (lines 82-85): rerun a turn with the
retained file and context and the new question. -/
def handleSuggestedQuestionClick (st : AppModel) (question : String)
    (tr : TextOutcome) (mo : MediaOutcomes) : AppModel × CallArgs :=
  processStoryGeneration st st.currentFile question st.currentContext tr mo

/-- `handleReset` (lines 87-96): every state field is reset to its initial
value. -/
def handleReset (_st : AppModel) : AppModel := initialState

/-- States reachable through the component's handlers, including the
intermediate states of an in-progress turn (each phase of
`processStoryGeneration` is a separate step, so mid-turn states are
reachable states too). -/
inductive Reachable : AppModel → Prop where
  | init : Reachable initialState
  | saveInputs (st : AppModel) (f : Option ImageFile) (c : ChildContext) :
      Reachable st → Reachable { st with currentFile := f, currentContext := c }
  | analyze (st : AppModel) : Reachable st → Reachable (turnStart st)
  | textFail (st : AppModel) : Reachable st → Reachable (turnTextFail st)
  | textOk (st : AppModel) (story : StoryResponse) : Reachable st → Reachable (storeStory st story)
  | media (st : AppModel) (mo : MediaOutcomes) : Reachable st → Reachable (settleMedia st mo)
  | reset (st : AppModel) : Reachable st → Reachable (handleReset st)

/-- One successful turn, as submitted through `handleStartAdventure`. -/
structure TurnInput where
  file : Option ImageFile
  question : String
  context : ChildContext
  story : StoryResponse
  media : MediaOutcomes

/-- Run one successful turn. -/
def successTurn (st : AppModel) (t : TurnInput) : AppModel :=
  (handleStartAdventure st t.file t.question t.context (TextOutcome.ok t.story) t.media).1

/-- Run a sequence of successful turns. -/
def runSession (st : AppModel) (turns : List TurnInput) : AppModel :=
  turns.foldl successTurn st

/-- A concrete story used by counterexamples and witnesses. -/
def sampleStory : StoryResponse :=
  { meta := { detected_language := "en"
              educational_concept := "gravity"
              context_used := false
              character_voice_profile := "brave" }
    storyboard := { title := "The Brave Crayon"
                    display_text := "The crayon flew."
                    audio_text := "The crayon flew. Whoosh!"
                    interactive_question := "What would you draw?"
                    suggested_questions := ["Why do things fall?"] }
    visuals := { image_prompt := "a brave crayon hero" } }

/-- Helper: `asciiCodes "RIFF"` evaluated. -/
theorem asciiCodes_RIFF : asciiCodes "RIFF" = [82, 73, 70, 70] := rfl

/-- Helper: `asciiCodes "WAVE"` evaluated. -/
theorem asciiCodes_WAVE : asciiCodes "WAVE" = [87, 65, 86, 69] := rfl

/-- Helper: `asciiCodes "fmt "` evaluated. -/
theorem asciiCodes_fmt : asciiCodes "fmt " = [102, 109, 116, 32] := rfl

/-- Helper: `asciiCodes "data"` evaluated. -/
theorem asciiCodes_data : asciiCodes "data" = [100, 97, 116, 97] := rfl

/-- Helper: little-endian reading of the four bytes written for `v`
recovers `v` mod 2^32. -/
theorem leVal_u32le (v : Nat) : leVal (u32le v) = v % 4294967296 := by
  simp [u32le, leVal]
  omega

/-- Helper: little-endian reading of the two bytes written for `v`
recovers `v` mod 2^16. -/
theorem leVal_u16le (v : Nat) : leVal (u16le v) = v % 65536 := by
  simp [u16le, leVal]
  omega

/-- Helper: appending a topic never leaves more than 3 entries. -/
theorem appendTopic_length_le (l : List String) (t : String) :
    (appendTopic l t).length ≤ 3 := by
  simp [appendTopic, jsSliceLast3]
  omega

/-- Helper: re-slicing after an append sees only the last three entries,
so slicing commutes with it. -/
theorem jsSliceLast3_append (l m : List String) :
    jsSliceLast3 (jsSliceLast3 l ++ m) = jsSliceLast3 (l ++ m) := by
  rcases Nat.le_total l.length 3 with h | h
  · unfold jsSliceLast3
    rw [Nat.sub_eq_zero_of_le h, List.drop_zero]
  · unfold jsSliceLast3
    rw [List.drop_append_eq_append_drop, List.drop_append_eq_append_drop, List.drop_drop]
    congr 2 <;> simp <;> omega

/-- Helper: the topic history a successful turn leaves behind. -/
theorem successTurn_topics (st : AppModel) (t : TurnInput) :
    (successTurn st t).previousTopics =
      appendTopic st.previousTopics t.story.meta.educational_concept := rfl

/-- Helper: after any number of successful turns from a state whose history
is within the cap, the history is the last-3 slice of the old history plus
the concepts of the turns, in order. -/
theorem runSession_topics (turns : List TurnInput) : ∀ st : AppModel,
    st.previousTopics.length ≤ 3 →
    (runSession st turns).previousTopics =
      jsSliceLast3 (st.previousTopics ++ turns.map fun t => t.story.meta.educational_concept) := by
  induction turns with
  | nil =>
    intro st h
    simp [runSession, jsSliceLast3, Nat.sub_eq_zero_of_le h]
  | cons t ts ih =>
    intro st h
    have step : runSession st (t :: ts) = runSession (successTurn st t) ts := rfl
    rw [step, ih (successTurn st t) (by rw [successTurn_topics]; exact appendTopic_length_le _ _),
      successTurn_topics]
    unfold appendTopic
    rw [jsSliceLast3_append, List.append_assoc]
    simp

/-- C1: for every turn in which the text-generation call succeeds, the
speech and illustration outcomes are applied independently: `audioUrl` is
set exactly to the speech outcome and `imageUrl` exactly to the
illustration outcome (a rejection of one call never discards the other's
fulfilled value), and the orchestrator transitions to `PLAYING` once both
have settled, for every combination of outcomes, both failing included. -/
theorem claim_C1_partial_failure_join (st : AppModel) (file : Option ImageFile)
    (question : String) (context : ChildContext) (story : StoryResponse)
    (mo : MediaOutcomes) :
    let fin := (processStoryGeneration st file question context (TextOutcome.ok story) mo).1
    fin.audioUrl = mo.audio ∧ fin.imageUrl = mo.image ∧ fin.appState = AppState.PLAYING := by
  cases ma : mo.audio <;> cases mi : mo.image <;>
    simp [processStoryGeneration, settleMedia, storeStory, turnStart, ma, mi]

set_option maxHeartbeats 1600000 in
/-- C2: for every PCM buffer and sample rate (within the 32-bit ranges the
4-byte header fields can represent), the encoder emits a `44 + n`-byte
buffer: "RIFF", little-endian `36 + n`, "WAVE", a format chunk of size 16
describing PCM format 1, 1 channel, sample rate `r`, byte rate `2r`, block
align 2 and 16 bits per sample, then "data", little-endian `n`, then the
`n` input bytes unmodified. -/
theorem claim_C2_wav_layout (pcm : List Nat) (r : Nat)
    (hn : 36 + pcm.length < 4294967296) (hr : 2 * r < 4294967296) :
    (pcmToWav pcm r).length = 44 + pcm.length ∧
    (pcmToWav pcm r).take 4 = asciiCodes "RIFF" ∧
    leVal (((pcmToWav pcm r).drop 4).take 4) = 36 + pcm.length ∧
    ((pcmToWav pcm r).drop 8).take 4 = asciiCodes "WAVE" ∧
    ((pcmToWav pcm r).drop 12).take 4 = asciiCodes "fmt " ∧
    leVal (((pcmToWav pcm r).drop 16).take 4) = 16 ∧
    leVal (((pcmToWav pcm r).drop 20).take 2) = 1 ∧
    leVal (((pcmToWav pcm r).drop 22).take 2) = 1 ∧
    leVal (((pcmToWav pcm r).drop 24).take 4) = r ∧
    leVal (((pcmToWav pcm r).drop 28).take 4) = 2 * r ∧
    leVal (((pcmToWav pcm r).drop 32).take 2) = 2 ∧
    leVal (((pcmToWav pcm r).drop 34).take 2) = 16 ∧
    ((pcmToWav pcm r).drop 36).take 4 = asciiCodes "data" ∧
    leVal (((pcmToWav pcm r).drop 40).take 4) = pcm.length ∧
    (pcmToWav pcm r).drop 44 = pcm := by
  refine ⟨?_, rfl, ?_, rfl, rfl, ?_, ?_, ?_, ?_, ?_, ?_, ?_, rfl, ?_, rfl⟩
  · simp [pcmToWav, u16le, u32le, asciiCodes_RIFF, asciiCodes_WAVE, asciiCodes_fmt,
      asciiCodes_data]
    omega
  · have e : ((pcmToWav pcm r).drop 4).take 4 = u32le (36 + pcm.length) := rfl
    rw [e, leVal_u32le]
    omega
  · have e : ((pcmToWav pcm r).drop 16).take 4 = u32le 16 := rfl
    rw [e, leVal_u32le]
  · have e : ((pcmToWav pcm r).drop 20).take 2 = u16le 1 := rfl
    rw [e, leVal_u16le]
  · have e : ((pcmToWav pcm r).drop 22).take 2 = u16le 1 := rfl
    rw [e, leVal_u16le]
  · have e : ((pcmToWav pcm r).drop 24).take 4 = u32le r := rfl
    rw [e, leVal_u32le]
    omega
  · have e : ((pcmToWav pcm r).drop 28).take 4 = u32le (r * 1 * 16 / 8) := rfl
    rw [e, leVal_u32le]
    omega
  · have e : ((pcmToWav pcm r).drop 32).take 2 = u16le (1 * 16 / 8) := rfl
    rw [e, leVal_u16le]
  · have e : ((pcmToWav pcm r).drop 34).take 2 = u16le 16 := rfl
    rw [e, leVal_u16le]
  · have e : ((pcmToWav pcm r).drop 40).take 4 = u32le pcm.length := rfl
    rw [e, leVal_u32le]
    omega

/-- C2 (witness): the concrete instance of the claim, PCM `[1, 2, 3, 4]`
at rate 24000: a 48-byte buffer starting "RIFF", "data" at 36, little-
endian 4 at 40, and the input bytes at 44. -/
theorem claim_C2_witness :
    (pcmToWav [1, 2, 3, 4] 24000).length = 44 + List.length [1, 2, 3, 4] ∧
    (pcmToWav [1, 2, 3, 4] 24000).take 4 = asciiCodes "RIFF" ∧
    leVal (((pcmToWav [1, 2, 3, 4] 24000).drop 4).take 4) = 36 + List.length [1, 2, 3, 4] ∧
    ((pcmToWav [1, 2, 3, 4] 24000).drop 8).take 4 = asciiCodes "WAVE" ∧
    ((pcmToWav [1, 2, 3, 4] 24000).drop 12).take 4 = asciiCodes "fmt " ∧
    leVal (((pcmToWav [1, 2, 3, 4] 24000).drop 16).take 4) = 16 ∧
    leVal (((pcmToWav [1, 2, 3, 4] 24000).drop 20).take 2) = 1 ∧
    leVal (((pcmToWav [1, 2, 3, 4] 24000).drop 22).take 2) = 1 ∧
    leVal (((pcmToWav [1, 2, 3, 4] 24000).drop 24).take 4) = 24000 ∧
    leVal (((pcmToWav [1, 2, 3, 4] 24000).drop 28).take 4) = 2 * 24000 ∧
    leVal (((pcmToWav [1, 2, 3, 4] 24000).drop 32).take 2) = 2 ∧
    leVal (((pcmToWav [1, 2, 3, 4] 24000).drop 34).take 2) = 16 ∧
    ((pcmToWav [1, 2, 3, 4] 24000).drop 36).take 4 = asciiCodes "data" ∧
    leVal (((pcmToWav [1, 2, 3, 4] 24000).drop 40).take 4) = List.length [1, 2, 3, 4] ∧
    (pcmToWav [1, 2, 3, 4] 24000).drop 44 = [1, 2, 3, 4] :=
  claim_C2_wav_layout [1, 2, 3, 4] 24000 (by decide) (by decide)

/-- C3: in every reachable session state the topic history has length at
most 3; and after any sequence of N successful turns from a fresh session
the history — and the snapshot sent with the next request — is exactly the
last min(N, 3) appended educational concepts in append order, of length
min(N, 3). -/
theorem claim_C3_context_window :
    (∀ st : AppModel, Reachable st → st.previousTopics.length ≤ 3) ∧
    (∀ (turns : List TurnInput) (q : String) (tr : TextOutcome) (mo : MediaOutcomes),
      let fin := runSession initialState turns
      let concepts := turns.map fun t => t.story.meta.educational_concept
      fin.previousTopics = concepts.drop (concepts.length - 3) ∧
      fin.previousTopics.length = min turns.length 3 ∧
      (handleSuggestedQuestionClick fin q tr mo).2.prevTopics =
        concepts.drop (concepts.length - 3)) := by
  constructor
  · intro st h
    induction h with
    | init => simp [initialState]
    | saveInputs st f c _ ih => exact ih
    | analyze st _ ih => exact ih
    | textFail st _ ih => exact ih
    | textOk st story _ _ => exact appendTopic_length_le _ _
    | media st mo _ ih => exact ih
    | reset st _ => simp [handleReset, initialState]
  · intro turns q tr mo
    have base : (runSession initialState turns).previousTopics =
        jsSliceLast3 (turns.map fun t => t.story.meta.educational_concept) := by
      rw [runSession_topics turns initialState (by simp [initialState])]
      simp [initialState]
    refine ⟨?_, ?_, ?_⟩
    · rw [base]; rfl
    · rw [base]
      simp [jsSliceLast3]
      omega
    · have args : (handleSuggestedQuestionClick (runSession initialState turns) q tr mo).2.prevTopics =
          (runSession initialState turns).previousTopics := by
        cases tr <;> rfl
      rw [args, base]; rfl

/-- A concrete successful turn used by witnesses. -/
def sampleTurn : TurnInput :=
  { file := none
    question := "q"
    context := emptyContext
    story := sampleStory
    media := { audio := none, image := none } }

/-- C3 (witness): the invariant instantiated at a concrete reachable
state, and the turn characterization at a concrete one-turn session. -/
theorem claim_C3_witness :
    initialState.previousTopics.length ≤ 3 ∧
    (runSession initialState [sampleTurn]).previousTopics =
      (List.map (fun t => t.story.meta.educational_concept) [sampleTurn]).drop
        ((List.map (fun t => t.story.meta.educational_concept) [sampleTurn]).length - 3) :=
  ⟨claim_C3_context_window.1 initialState Reachable.init,
   (claim_C3_context_window.2 [sampleTurn] "q" TextOutcome.err
      { audio := none, image := none }).1⟩

/-- C4 (amended): if the text-generation call fails, the orchestrator
transitions to `ERROR`, a user-facing message is surfaced, the media urls
are cleared and the context window is unchanged; the stored StoryResult is
left untouched, so it remains `none` on a fresh session but a prior turn's
story is *not* discarded. -/
theorem claim_C4_amended_text_failure (st : AppModel) (file : Option ImageFile)
    (q : String) (ctx : ChildContext) (mo : MediaOutcomes) :
    let fin := (processStoryGeneration st file q ctx TextOutcome.err mo).1
    fin.appState = AppState.ERROR ∧ fin.errorMsg = some oopsMsg ∧
    fin.audioUrl = none ∧ fin.imageUrl = none ∧
    fin.previousTopics = st.previousTopics ∧ fin.storyData = st.storyData := by
  simp [processStoryGeneration, turnStart, turnTextFail]

/-- C4 (counterexample): after a successful first turn, a second turn whose
text call fails reaches `ERROR` but leaves the prior StoryResult stored:
`storyData` is not null, contradicting the claim that it remains null with
any prior StoryResult discarded. -/
theorem claim_C4_counterexample :
    let st1 := (handleStartAdventure initialState none "Why is the sky blue?" emptyContext
        (TextOutcome.ok sampleStory) { audio := none, image := none }).1
    let st2 := (handleSuggestedQuestionClick st1 "Why do stars shine?" TextOutcome.err
        { audio := none, image := none }).1
    st2.appState = AppState.ERROR ∧ st2.storyData = some sampleStory ∧
      ¬(st2.storyData = none) := by
  decide

/-- The state left by the interleaving in which `handleReset` runs while
the text call of a submitted turn is pending and the call then fulfills:
the turn enters its in-flight state, the reset restores the initial state,
and the stale continuation then runs its store and settle phases. -/
def staleResultTrace : AppModel :=
  settleMedia
    (storeStory
      (handleReset (turnStart
        { initialState with currentFile := none, currentContext := emptyContext }))
      sampleStory)
    { audio := some "blob:a", image := some "blob:i" }

/-- C5 (code bug): no async completion is guarded by a turn-identity check,
so in the interleaving where `handleReset` runs while the text call of a
turn is pending, the late-arriving result still mutates post-reset state:
the stale continuation stores the story, applies the media urls and moves
the state to `PLAYING`, not `IDLE`. -/
theorem claim_C5_stale_result_mutates_after_reset :
    staleResultTrace.appState = AppState.PLAYING ∧
      staleResultTrace.storyData = some sampleStory ∧
      staleResultTrace.audioUrl = some "blob:a" ∧
      staleResultTrace.previousTopics = ["gravity"] ∧
      ¬(staleResultTrace.appState = AppState.IDLE) := by
  decide

/-- C7: every built text-generation request, with or without an image,
carries a structured context object whose `child_name` is the supplied
child name with JS-falsy defaulting to `"Friend"`, whose `character_name`
defaults to the empty string, and whose `prev_topics` is exactly the
supplied context snapshot. -/
theorem claim_C7_context_always_attached (img : Option ImageFile) (q : String)
    (ctx : ChildContext) (topics : List String) :
    requestContext (buildStoryRequest img q ctx topics) =
      some { child_name := jsOr ctx.childName "Friend"
             character_name := jsOr ctx.characterName ""
             prev_topics := topics } := by
  cases img <;> simp [buildStoryRequest, requestContext]

/-- C8: after a successful turn submitted with image `img1` and context
`ctx1`, a follow-up question `q2` issues a new text-generation call whose
file and personalization are `img1` and `ctx1` unchanged (and whose
question is `q2`), without the caller resupplying them. -/
theorem claim_C8_followup_reuses_inputs (st : AppModel) (img1 : Option ImageFile)
    (q1 : String) (ctx1 : ChildContext) (story : StoryResponse) (mo1 : MediaOutcomes)
    (q2 : String) (tr2 : TextOutcome) (mo2 : MediaOutcomes) :
    let st1 := (handleStartAdventure st img1 q1 ctx1 (TextOutcome.ok story) mo1).1
    let call2 := (handleSuggestedQuestionClick st1 q2 tr2 mo2).2
    call2.file = img1 ∧ call2.context = ctx1 ∧ call2.question = q2 ∧
      buildStoryRequest call2.file call2.question call2.context call2.prevTopics =
        buildStoryRequest img1 q2 ctx1 st1.previousTopics := by
  cases tr2 <;>
    simp [handleStartAdventure, handleSuggestedQuestionClick, processStoryGeneration,
      turnStart, settleMedia, storeStory, turnTextFail]

/-- C9 (amended): a malformed PCM buffer (an odd-length buffer included)
does not crash the turn, but it is not treated as a media failure either:
`pcmToWav` totally encodes any byte buffer into a `44 + n`-byte container,
the speech call fulfills, `audioUrl` is set to the resulting object URL,
and the orchestrator reaches `PLAYING`. -/
theorem claim_C9_amended_malformed_pcm_still_encodes (pcm : List Nat) (st : AppModel)
    (file : Option ImageFile) (q : String) (ctx : ChildContext) (story : StoryResponse)
    (img : Option String) :
    let mo : MediaOutcomes := { audio := speechResultOfPcm pcm, image := img }
    let fin := (processStoryGeneration st file q ctx (TextOutcome.ok story) mo).1
    fin.audioUrl = some (urlOfWav (pcmToWav pcm 24000)) ∧
      fin.appState = AppState.PLAYING ∧
      (pcmToWav pcm 24000).length = 44 + pcm.length := by
  refine ⟨?_, ?_, ?_⟩
  · cases mi : img <;>
      simp [processStoryGeneration, settleMedia, storeStory, turnStart, speechResultOfPcm]
  · cases mi : img <;>
      simp [processStoryGeneration, settleMedia, storeStory, turnStart]
  · simp [pcmToWav, u16le, u32le, asciiCodes_RIFF, asciiCodes_WAVE, asciiCodes_fmt,
      asciiCodes_data]
    omega

/-- C9 (counterexample): for the odd-length PCM buffer `[1]`, the encoding
step fulfills with a 45-byte container and the orchestrator stores the
resulting audio URL: `audioUrl` is present, contradicting the claim that a
malformed buffer leaves `audioUrl` absent. -/
theorem claim_C9_counterexample :
    speechResultOfPcm [1] ≠ none ∧ (pcmToWav [1] 24000).length = 45 ∧
      (let fin := (processStoryGeneration initialState none "q" emptyContext
          (TextOutcome.ok sampleStory) { audio := speechResultOfPcm [1], image := none }).1
       fin.audioUrl = speechResultOfPcm [1] ∧ ¬(fin.audioUrl = none) ∧
         fin.appState = AppState.PLAYING) := by
  refine ⟨by simp [speechResultOfPcm], by rfl, by rfl, ?_, by rfl⟩
  simp [processStoryGeneration, settleMedia, storeStory, turnStart, speechResultOfPcm]

/-- C10: an explicitly empty child name is indistinguishable from an absent
one: the whole built request coincides, and in both cases the attached
context object carries `child_name = "Friend"`. -/
theorem claim_C10_empty_childName_defaults (cn : Option String) (img : Option ImageFile)
    (q : String) (topics : List String) :
    buildStoryRequest img q { childName := some "", characterName := cn } topics =
        buildStoryRequest img q { childName := none, characterName := cn } topics ∧
      requestContext (buildStoryRequest img q { childName := some "", characterName := cn } topics) =
        some { child_name := "Friend", character_name := jsOr cn "", prev_topics := topics } := by
  constructor <;> cases img <;> simp [buildStoryRequest, requestContext, jsOr]

/-- The first alternative of the regex `/```json\n|\n```/g` applied to the
response text in `generateStory` (geminiService.ts line 180). -/
def fence1 : List Char := "```json\n".toList

/-- The second alternative of the same regex. -/
def fence2 : List Char := "\n```".toList

/-- The backtick character. -/
def fChar : Char := Char.ofNat 96

/-- Helper: `fence1` as an explicit character list. -/
theorem fence1_eq : fence1 = [fChar, fChar, fChar, 'j', 's', 'o', 'n', '\n'] := by decide

/-- Helper: `fence2` as an explicit character list. -/
theorem fence2_eq : fence2 = ['\n', fChar, fChar, fChar] := by decide

/-- `p` is an initial run of `l`. -/
def leadsWith : List Char → List Char → Bool
  | [], _ => true
  | _ :: _, [] => false
  | p :: ps, c :: cs => p == c && leadsWith ps cs

/-- JS `text.replace(/```json\n|\n```/g, "")` (geminiService.ts line 180):
a left-to-right scan removing every non-overlapping match of either
alternative, the first alternative preferred at each position, as the JS
global regex replace does. -/
def stripFences (l : List Char) : List Char :=
  match l with
  | [] => []
  | c :: rest =>
    if leadsWith fence1 (c :: rest) then stripFences (rest.drop 7)
    else if leadsWith fence2 (c :: rest) then stripFences (rest.drop 3)
    else c :: stripFences rest
termination_by l.length
decreasing_by
  all_goals simp [List.length_drop]
  all_goals omega

/-- Whitespace removed by JS `String.prototype.trim` (the common ASCII
subset; both compared texts below receive the identical trim, so the exact
whitespace set does not affect the equivalence result). -/
def isTrimWS (c : Char) : Bool := c == ' ' || c == '\n' || c == '\t' || c == '\r'

/-- JS `s.trim()` on character lists. -/
def trimWS (l : List Char) : List Char :=
  ((l.dropWhile isTrimWS).reverse.dropWhile isTrimWS).reverse

/-- The response post-processing of `generateStory` (line 180):
`text.replace(/```json\n|\n```/g, "").trim()`. -/
def processResponseText (t : List Char) : List Char := trimWS (stripFences t)

/-- A conservative syntactic condition satisfied by every strict-JSON
text, scanning left to right while tracking whether the position is inside
a string literal and whether the previous character was an unconsumed
escape backslash: every backtick lies inside a string literal, no raw
newline lies inside a string literal, and every string literal is closed.
Strict JSON guarantees all three: a backtick is illegal outside string
literals, a raw control character is illegal inside them (escaped position
included), and every literal of a complete text is closed. -/
def jsonishScan : Bool → Bool → List Char → Bool
  | false, _, [] => true
  | true, _, [] => false
  | false, _, c :: r =>
    if c = fChar then false
    else if c = '"' then jsonishScan true false r
    else jsonishScan false false r
  | true, esc, c :: r =>
    if c = '\n' then false
    else if esc then jsonishScan true false r
    else if c = '\\' then jsonishScan true true r
    else if c = '"' then jsonishScan false false r
    else jsonishScan true false r

/-- The scan started outside any string literal. -/
def jsonBodyOk (s : List Char) : Bool := jsonishScan false false s

/-- Helper: a backtick outside a string literal fails the scan. -/
theorem scan_out_bt (e : Bool) (r : List Char) :
    jsonishScan false e (fChar :: r) = false := by
  simp [jsonishScan]

/-- Helper: a quote outside a string literal opens one. -/
theorem scan_out_quote (e : Bool) (r : List Char) :
    jsonishScan false e ('"' :: r) = jsonishScan true false r := by
  simp [jsonishScan, (by decide : ('"' : Char) ≠ fChar)]

/-- Helper: any other character outside a string literal is skipped. -/
theorem scan_out_step (e : Bool) (c : Char) (r : List Char)
    (h1 : c ≠ fChar) (h2 : c ≠ '"') :
    jsonishScan false e (c :: r) = jsonishScan false false r := by
  simp [jsonishScan, h1, h2]

/-- Helper: a raw newline inside a string literal fails the scan. -/
theorem scan_in_nl (e : Bool) (r : List Char) :
    jsonishScan true e ('\n' :: r) = false := by
  cases e <;> simp [jsonishScan]

/-- Helper: after a backslash, any non-newline character is consumed. -/
theorem scan_in_esc (c : Char) (r : List Char) (h : c ≠ '\n') :
    jsonishScan true true (c :: r) = jsonishScan true false r := by
  simp [jsonishScan, h]

/-- Helper: an unescaped backslash inside a string literal starts an
escape. -/
theorem scan_in_backslash (r : List Char) :
    jsonishScan true false ('\\' :: r) = jsonishScan true true r := by
  simp [jsonishScan, (by decide : ('\\' : Char) ≠ '\n')]

/-- Helper: an unescaped quote inside a string literal closes it. -/
theorem scan_in_quote (r : List Char) :
    jsonishScan true false ('"' :: r) = jsonishScan false false r := by
  simp [jsonishScan, (by decide : ('"' : Char) ≠ '\n'), (by decide : ('"' : Char) ≠ '\\')]

/-- Helper: any other character inside a string literal is skipped. -/
theorem scan_in_step (c : Char) (r : List Char)
    (h1 : c ≠ '\n') (h2 : c ≠ '\\') (h3 : c ≠ '"') :
    jsonishScan true false (c :: r) = jsonishScan true false r := by
  simp [jsonishScan, h1, h2, h3]

/-- Helper: the scan fails on any text that begins with the fence opener:
from outside a string the leading backtick is illegal, from inside one the
raw newline that ends the opener (or the unclosed literal) is. -/
theorem scan_fence1_false (b e : Bool) (ys : List Char) :
    jsonishScan b e (fence1 ++ ys) = false := by
  rw [fence1_eq]
  simp only [List.cons_append, List.nil_append]
  cases b
  · exact scan_out_bt e _
  · cases e
    · rw [scan_in_step fChar _ (by decide) (by decide) (by decide),
        scan_in_step fChar _ (by decide) (by decide) (by decide),
        scan_in_step fChar _ (by decide) (by decide) (by decide),
        scan_in_step 'j' _ (by decide) (by decide) (by decide),
        scan_in_step 's' _ (by decide) (by decide) (by decide),
        scan_in_step 'o' _ (by decide) (by decide) (by decide),
        scan_in_step 'n' _ (by decide) (by decide) (by decide)]
      exact scan_in_nl false _
    · rw [scan_in_esc fChar _ (by decide),
        scan_in_step fChar _ (by decide) (by decide) (by decide),
        scan_in_step fChar _ (by decide) (by decide) (by decide),
        scan_in_step 'j' _ (by decide) (by decide) (by decide),
        scan_in_step 's' _ (by decide) (by decide) (by decide),
        scan_in_step 'o' _ (by decide) (by decide) (by decide),
        scan_in_step 'n' _ (by decide) (by decide) (by decide)]
      exact scan_in_nl false _

/-- Helper: the scan fails on any text that begins with the fence closer:
from inside a string the raw newline is illegal, from outside one the
backtick that follows is. -/
theorem scan_fence2_false (b e : Bool) (ys : List Char) :
    jsonishScan b e (fence2 ++ ys) = false := by
  rw [fence2_eq]
  simp only [List.cons_append, List.nil_append]
  cases b
  · rw [scan_out_step e '\n' _ (by decide) (by decide)]
    exact scan_out_bt false _
  · exact scan_in_nl e _

/-- Helper: a run test succeeds on the run itself followed by anything. -/
theorem leadsWith_append_self (p t : List Char) : leadsWith p (p ++ t) = true := by
  induction p with
  | nil => rfl
  | cons a ps ih => simp [leadsWith, ih]

/-- Helper: the run test characterizes list prefixes. -/
theorem leadsWith_iff (p l : List Char) : leadsWith p l = true ↔ ∃ t, l = p ++ t := by
  constructor
  · intro h
    induction p generalizing l with
    | nil => exact ⟨l, rfl⟩
    | cons a ps ih =>
      cases l with
      | nil => exact Bool.noConfusion h
      | cons c cs =>
        simp only [leadsWith, Bool.and_eq_true, beq_iff_eq] at h
        obtain ⟨hac, h2⟩ := h
        obtain ⟨t, ht⟩ := ih cs h2
        exact ⟨t, by rw [ht, hac, List.cons_append]⟩
  · rintro ⟨t, rfl⟩
    exact leadsWith_append_self p t

/-- Helper: if `p` starts `l ++ t` then either `l` extends `p` or `l` is an
initial run of `p`. -/
theorem leadsWith_append_cases (p : List Char) : ∀ l t : List Char,
    leadsWith p (l ++ t) = true →
    (∃ ys, l = p ++ ys) ∨ (∃ zs, p = l ++ zs) := by
  induction p with
  | nil => exact fun l t _ => Or.inl ⟨l, rfl⟩
  | cons a ps ih =>
    intro l t h
    cases l with
    | nil => exact Or.inr ⟨a :: ps, rfl⟩
    | cons c cs =>
      have h2 : leadsWith (a :: ps) (c :: (cs ++ t)) = true := h
      simp only [leadsWith, Bool.and_eq_true, beq_iff_eq] at h2
      obtain ⟨hac, h3⟩ := h2
      subst hac
      rcases ih cs t h3 with ⟨ys, hy⟩ | ⟨zs, hz⟩
      · exact Or.inl ⟨ys, by rw [hy]; rfl⟩
      · exact Or.inr ⟨zs, by rw [hz]; rfl⟩

/-- Helper: `stripFences` on the empty list. -/
theorem stripFences_nil : stripFences [] = [] := by
  rw [stripFences.eq_def]

/-- Helper: `stripFences` removes a match of the first alternative. -/
theorem stripFences_pos1 (c : Char) (rest : List Char)
    (h : leadsWith fence1 (c :: rest) = true) :
    stripFences (c :: rest) = stripFences (rest.drop 7) := by
  rw [stripFences.eq_def]
  simp [h]

/-- Helper: `stripFences` removes a match of the second alternative when
the first does not match. -/
theorem stripFences_pos2 (c : Char) (rest : List Char)
    (h1 : leadsWith fence1 (c :: rest) = false)
    (h2 : leadsWith fence2 (c :: rest) = true) :
    stripFences (c :: rest) = stripFences (rest.drop 3) := by
  rw [stripFences.eq_def]
  simp [h1, h2]

/-- Helper: `stripFences` keeps a character at which neither alternative
matches. -/
theorem stripFences_cons (c : Char) (rest : List Char)
    (h1 : leadsWith fence1 (c :: rest) = false)
    (h2 : leadsWith fence2 (c :: rest) = false) :
    stripFences (c :: rest) = c :: stripFences rest := by
  rw [stripFences.eq_def]
  simp [h1, h2]

/-- Helper: a successful scan step leaves a successfully scanning state
for the tail. -/
theorem scan_next (b e : Bool) (c : Char) (cs : List Char)
    (h : jsonishScan b e (c :: cs) = true) :
    ∃ b2 e2 : Bool, jsonishScan b2 e2 cs = true := by
  cases b
  · by_cases hc : c = fChar
    · subst hc
      rw [scan_out_bt] at h
      exact Bool.noConfusion h
    · by_cases hq : c = '"'
      · subst hq
        rw [scan_out_quote] at h
        exact ⟨true, false, h⟩
      · rw [scan_out_step e c cs hc hq] at h
        exact ⟨false, false, h⟩
  · by_cases hn : c = '\n'
    · subst hn
      rw [scan_in_nl] at h
      exact Bool.noConfusion h
    · cases e
      · by_cases hb : c = '\\'
        · subst hb
          rw [scan_in_backslash] at h
          exact ⟨true, true, h⟩
        · by_cases hq : c = '"'
          · subst hq
            rw [scan_in_quote] at h
            exact ⟨false, false, h⟩
          · rw [scan_in_step c cs hn hb hq] at h
            exact ⟨true, false, h⟩
      · rw [scan_in_esc c cs hn] at h
        exact ⟨true, false, h⟩

/-- Helper: the scan fails on every nonempty initial run of the fence
opener (the leading backtick is illegal outside a string literal, and
inside one the run either ends the input mid-literal or hits the raw
newline). -/
theorem scan_fence1_prefix_false (c : Char) (cs zs : List Char)
    (hz : fence1 = (c :: cs) ++ zs) : ∀ b e : Bool, jsonishScan b e (c :: cs) = false := by
  rw [fence1_eq] at hz
  rcases cs with _ | ⟨a1, _ | ⟨a2, _ | ⟨a3, _ | ⟨a4, _ | ⟨a5, _ | ⟨a6, _ | ⟨a7, rest⟩⟩⟩⟩⟩⟩⟩ <;>
    simp only [List.cons_append, List.nil_append, List.cons.injEq] at hz
  · obtain ⟨rfl, -⟩ := hz
    intro b e
    cases b <;> cases e <;> decide
  · obtain ⟨rfl, rfl, -⟩ := hz
    intro b e
    cases b <;> cases e <;> decide
  · obtain ⟨rfl, rfl, rfl, -⟩ := hz
    intro b e
    cases b <;> cases e <;> decide
  · obtain ⟨rfl, rfl, rfl, rfl, -⟩ := hz
    intro b e
    cases b <;> cases e <;> decide
  · obtain ⟨rfl, rfl, rfl, rfl, rfl, -⟩ := hz
    intro b e
    cases b <;> cases e <;> decide
  · obtain ⟨rfl, rfl, rfl, rfl, rfl, rfl, -⟩ := hz
    intro b e
    cases b <;> cases e <;> decide
  · obtain ⟨rfl, rfl, rfl, rfl, rfl, rfl, rfl, -⟩ := hz
    intro b e
    cases b <;> cases e <;> decide
  · obtain ⟨rfl, rfl, rfl, rfl, rfl, rfl, rfl, rfl, h8⟩ := hz
    obtain ⟨rfl, -⟩ := List.append_eq_nil.mp h8.symm
    intro b e
    cases b <;> cases e <;> decide

/-- Helper: the scan fails on the fence closer itself. -/
theorem scan_fence2_self_false (b e : Bool) : jsonishScan b e fence2 = false := by
  have h := scan_fence2_false b e []
  rwa [List.append_nil] at h

/-- Helper: a text that passes the scan contains no match of either regex
alternative, so `stripFences` leaves it unchanged. -/
theorem scan_stripFences_id (s : List Char) : ∀ b e : Bool,
    jsonishScan b e s = true → stripFences s = s := by
  induction s with
  | nil => exact fun _ _ _ => stripFences_nil
  | cons c cs ih =>
    intro b e h
    have hf1 : leadsWith fence1 (c :: cs) = false := by
      cases hl : leadsWith fence1 (c :: cs)
      · rfl
      · obtain ⟨t, ht⟩ := (leadsWith_iff _ _).1 hl
        rw [ht, scan_fence1_false] at h
        exact Bool.noConfusion h
    have hf2 : leadsWith fence2 (c :: cs) = false := by
      cases hl : leadsWith fence2 (c :: cs)
      · rfl
      · obtain ⟨t, ht⟩ := (leadsWith_iff _ _).1 hl
        rw [ht, scan_fence2_false] at h
        exact Bool.noConfusion h
    rw [stripFences_cons c cs hf1 hf2]
    obtain ⟨b2, e2, h2⟩ := scan_next b e c cs h
    rw [ih b2 e2 h2]

/-- Helper: appending the fence closer to a text that passes the scan
creates exactly one match, at the junction, and no match can start inside
the scanned text or span the junction, so `stripFences` removes exactly
the appended closer. -/
theorem scan_stripFences_junction (s : List Char) : ∀ b e : Bool,
    jsonishScan b e s = true → stripFences (s ++ fence2) = s := by
  induction s with
  | nil =>
    intro b e _
    rw [List.nil_append, fence2_eq,
      stripFences_pos2 '\n' [fChar, fChar, fChar] (by decide) (by decide)]
    exact stripFences_nil
  | cons c cs ih =>
    intro b e h
    have hf1 : leadsWith fence1 (c :: (cs ++ fence2)) = false := by
      cases hl : leadsWith fence1 (c :: (cs ++ fence2))
      · rfl
      · exfalso
        have hl2 : leadsWith fence1 ((c :: cs) ++ fence2) = true := by
          rwa [List.cons_append]
        rcases leadsWith_append_cases fence1 (c :: cs) fence2 hl2 with ⟨ys, hy⟩ | ⟨zs, hz⟩
        · rw [hy, scan_fence1_false] at h
          exact Bool.noConfusion h
        · rw [scan_fence1_prefix_false c cs zs hz b e] at h
          exact Bool.noConfusion h
    have hf2 : leadsWith fence2 (c :: (cs ++ fence2)) = false := by
      cases hl : leadsWith fence2 (c :: (cs ++ fence2))
      · rfl
      · exfalso
        have hl2 : leadsWith fence2 ((c :: cs) ++ fence2) = true := by
          rwa [List.cons_append]
        rcases leadsWith_append_cases fence2 (c :: cs) fence2 hl2 with ⟨ys, hy⟩ | ⟨zs, hz⟩
        · rw [hy, scan_fence2_false] at h
          exact Bool.noConfusion h
        · rw [fence2_eq] at hz
          rcases cs with _ | ⟨a1, _ | ⟨a2, _ | ⟨a3, rest⟩⟩⟩ <;>
            simp only [List.cons_append, List.nil_append, List.cons.injEq] at hz
          · obtain ⟨rfl, -⟩ := hz
            exact absurd hl2 (by decide)
          · obtain ⟨rfl, rfl, -⟩ := hz
            exact absurd hl2 (by decide)
          · obtain ⟨rfl, rfl, rfl, -⟩ := hz
            exact absurd hl2 (by decide)
          · obtain ⟨rfl, rfl, rfl, rfl, h4⟩ := hz
            obtain ⟨rfl, -⟩ := List.append_eq_nil.mp h4.symm
            have hval := scan_fence2_self_false b e
            rw [fence2_eq] at hval
            rw [hval] at h
            exact Bool.noConfusion h
    rw [List.cons_append, stripFences_cons c (cs ++ fence2) hf1 hf2]
    obtain ⟨b2, e2, h2⟩ := scan_next b e c cs h
    rw [ih b2 e2 h2]

/-- Helper: `stripFences` removes a leading fence opener. -/
theorem stripFences_fence1_cons (X : List Char) :
    stripFences (fence1 ++ X) = stripFences X :=
  stripFences_pos1 fChar (fence1.tail ++ X) (leadsWith_append_self fence1 X)

/-- C6: fence stripping before structural parsing is parse-equivalent to
the unwrapped body: for every body `s` passing the strict-JSON scan (a
condition every JSON body satisfies), wrapping `s` in the fenced block
changes nothing after post-processing, so any parse function yields the
same StoryResult value on the wrapped response as on the bare body. -/
theorem claim_C6_fence_stripping (s : List Char) (h : jsonBodyOk s = true) :
    ∀ {α : Type} (parse : List Char → α),
      parse (processResponseText (fence1 ++ s ++ fence2)) =
        parse (processResponseText s) := by
  intro α parse
  have hL : stripFences (fence1 ++ s ++ fence2) = s := by
    rw [List.append_assoc, stripFences_fence1_cons]
    exact scan_stripFences_junction s false false h
  have hR : stripFences s = s := scan_stripFences_id s false false h
  unfold processResponseText
  rw [hL, hR]

/-- A concrete JSON body used by the C6 witness. -/
def sampleJsonBody : List Char := "[1, 2, 42]".toList

/-- C6 (witness): the fence-stripping equivalence applied at a concrete
JSON body and a concrete parse function. -/
theorem claim_C6_witness :
    processResponseText (fence1 ++ sampleJsonBody ++ fence2) =
      processResponseText sampleJsonBody :=
  claim_C6_fence_stripping sampleJsonBody (by decide) (fun l => l)

end SocraticTales
